import Mathlib

/-!
Verification of the conversion orchestrator in `src/convert.py`
(brunormorillo/python-video-converter).

The Python program is shallowly embedded: every pure computation of the
script becomes a Lean function; interactions with the outside world
(`subprocess.check_output` probes, the ffmpeg subprocess, the filesystem)
are modelled by explicit value parameters (an `Option` models a call that
may raise, a record models the observable behaviour of one subprocess
run), and the side effects the script performs are returned as data (an
event list for `main`, result fields for `process_video`).  Machine
floats of the script are modelled by exact rationals `ℚ`; Python integer
semantics (floor division `//`, truncating `int()`) are made explicit.
-/

/-! ### Path model

Paths are plain strings, as in the script.  `joinPath` models
`os.path.join(a, b)` for a non-absolute second component, and `relpath`
models `os.path.relpath(file, start)` in the only situation the script
uses it: `file` lies strictly below `start`, i.e. `file = start ++ "/" ++ rest`,
where `relpath` returns `rest`. -/

def joinPath (a b : String) : String := a ++ "/" ++ b

/-- Models `os.path.relpath file start` for `file` strictly under `start`. -/
def relpath (file start : String) : String :=
  String.mk (file.data.drop (start.data.length + 1))

/-- Index of the last occurrence of `c` in `cs`. -/
def lastIndexOf (c : Char) : List Char → Option Nat
  | [] => none
  | x :: rest =>
    match lastIndexOf c rest with
    | some i => some (i + 1)
    | none => if x = c then some 0 else none

/-- Models `os.path.dirname p`: everything before the last `'/'`
(empty when there is no `'/'`). -/
def dirName (p : String) : String :=
  match lastIndexOf '/' p.data with
  | none => ""
  | some i => String.mk (p.data.take i)

/-- Models the first component of `os.path.splitext p`: the path with its
extension removed.  CPython semantics: the extension starts at the last
dot of the final path component, provided some non-dot character of that
component precedes it. -/
def splitextBase (p : String) : String :=
  let cs := p.data
  let base_start : Nat :=
    match lastIndexOf '/' cs with
    | some i => i + 1
    | none => 0
  match lastIndexOf '.' cs with
  | none => p
  | some d =>
    if d < base_start then p
    else if ((cs.drop base_start).take (d - base_start)).any (fun ch => ch ≠ '.') then
      String.mk (cs.take d)
    else p

/-! ### File census (`main`, lines 199–206)

The directory tree is a forest of named entries.  `osWalk` models the
full enumeration performed by the `os.walk` loop: it yields one
`(dirpath, filename)` pair per file, `dirpath` being the root joined with
the directory chain above the file.  `os.walk`'s visiting order depends
on the platform's directory-listing order, which is why the script sorts
afterwards; accordingly census facts are proved invariant under
permutations of the enumeration. -/

inductive FsTree where
  | file (name : String)
  | dir (name : String) (children : List FsTree)

/-- All files below `root`, as `(dirpath, filename)` pairs, in structural
order. -/
def osWalk (root : String) : List FsTree → List (String × String)
  | [] => []
  | .file n :: rest => (root, n) :: osWalk root rest
  | .dir n cs :: rest => osWalk (joinPath root n) cs ++ osWalk root rest

/-- Models Python `str.endswith(tuple(suffixes))`: true iff the string
ends with at least one of the suffixes (case-sensitive exact match);
false for an empty tuple. -/
def pyEndsWith (s : String) (suffixes : List String) : Bool :=
  suffixes.any (fun suf => suf.data.isSuffixOf s.data)

/-- The census filter of line 202: keep a file when `input_formats` is
absent (`None`) or the *filename* ends with one of the given suffixes. -/
def censusKeep (input_formats : Option (List String)) (filename : String) : Bool :=
  match input_formats with
  | none => true
  | some exts => pyEndsWith filename exts

/-- The list `files_to_convert` (lines 199–206): walk, filter by suffix, build the
full path `os.path.join(root, file)`, then sort lexicographically. -/
def files_to_convert (root : String) (entries : List FsTree)
    (input_formats : Option (List String)) : List String :=
  (((osWalk root entries).filter (fun rf => censusKeep input_formats rf.2)).map
      (fun rf => joinPath rf.1 rf.2)).mergeSort (fun a b => decide (a ≤ b))

/-! ### Numeric helpers -/

/-- The natural number denoted by a run of decimal digit characters. -/
def natOfDigits (cs : List Char) : Nat :=
  cs.foldl (fun a c => a * 10 + (c.toNat - 48)) 0

/-- Decimal parse that fails on any non-digit character. -/
def decDigits? (cs : List Char) : Option Nat :=
  cs.foldlM (fun a c => if c.isDigit then some (a * 10 + (c.toNat - 48)) else none) 0

/-- Models Python `float(s)` on plain decimal literals (optional sign,
integer part, optional `'.'` and fractional part) — the only shape
ffprobe prints for a duration.  Any other input makes `float` raise,
modelled by `none`. -/
def pyFloat? (s : String) : Option ℚ :=
  let signSplit : ℚ × List Char :=
    match s.data with
    | '-' :: r => (-1, r)
    | '+' :: r => (1, r)
    | r => (1, r)
  match signSplit.2.splitOn '.' with
  | [intPart] =>
    if intPart.isEmpty then none
    else (decDigits? intPart).map (fun n => signSplit.1 * n)
  | [intPart, fracPart] =>
    if intPart.isEmpty && fracPart.isEmpty then none
    else
      match decDigits? intPart, decDigits? fracPart with
      | some i, some f =>
        some (signSplit.1 * ((i : ℚ) + (f : ℚ) / (10 : ℚ) ^ fracPart.length))
      | _, _ => none
  | _ => none

/-- Python `int()` applied to a float truncates toward zero. -/
def pyInt (q : ℚ) : ℤ := if 0 ≤ q then ⌊q⌋ else -⌊-q⌋

/-! ### Media probes (`get_original_bitrate`, `get_video_duration`,
lines 41–68)

Each ffprobe invocation is modelled by its outcome: `none` when
`subprocess.check_output` raises, `some s` when it returns the (already
stripped) text `s`. -/

/-- Function `get_original_bitrate` (lines 41–54): an output of `N/A` or empty output raises
`ValueError`, a non-numeric output makes `int()` raise, and a failed
probe raises in `check_output`; every raise is caught by the
`except Exception` clause, which returns the fixed fallback `"6000k"`.
Otherwise the result is `f"{int(result) // 1000}k"` (Python `//` is floor
division, `Int.fdiv`). -/
def get_original_bitrate (probe : Option String) : String :=
  match probe with
  | none => "6000k"
  | some result =>
    if result = "N/A" || result = "" then "6000k"
    else
      match result.toInt? with
      | none => "6000k"
      | some n => toString (Int.fdiv n 1000) ++ "k"

/-- Function `get_video_duration` (lines 57–68): `float(result)` of the probe
output; any exception (probe failure or unparsable text) is caught and
`None` is returned. -/
def get_video_duration (probe : Option String) : Option ℚ :=
  probe.bind pyFloat?

/-! ### Progress-stream parsing (`process_video`, lines 137–149) -/

def outTimeMarker : List Char := "out_time_ms=".data

/-- Models `re.search(r"out_time_ms=(\d+)", line)` (line 142): scan for
the first position where the marker followed by at least one digit
matches; the captured group is the maximal digit run after the marker.
`none` models a line without the marker (`match` is `None`). -/
def parseOutTime : List Char → Option Nat
  | [] => none
  | c :: rest =>
    if outTimeMarker.isPrefixOf (c :: rest) then
      let digits := ((c :: rest).drop outTimeMarker.length).takeWhile Char.isDigit
      if digits.isEmpty then parseOutTime rest
      else some (natOfDigits digits)
    else parseOutTime rest

/-- One iteration of the stream loop (lines 142–149) on one line:
`some p` when a new progress value `p` is emitted to the per-file bar,
`none` when the line changes nothing.  `last` is `last_progress`.
The guard `if match and video_duration:` uses Python truthiness, so both
`video_duration = None` and `video_duration = 0.0` skip the branch. -/
def lineStep (video_duration : Option ℚ) (last : ℤ) (line : String) : Option ℤ :=
  match parseOutTime line.data, video_duration with
  | some ms, some d =>
    if d = 0 then none
    else
      let out_time_seconds : ℚ := (ms : ℚ) / 1000000
      let progress : ℤ := min 99 (pyInt (out_time_seconds / d * 100))
      if progress > last then some progress else none
  | _, _ => none

/-- The loop body's effect on the pair (emitted values so far,
`last_progress`). -/
def progressStep (video_duration : Option ℚ) (acc : List ℤ × ℤ)
    (line : String) : List ℤ × ℤ :=
  match lineStep video_duration acc.2 line with
  | none => acc
  | some p => (acc.1 ++ [p], p)

/-- The whole stream loop (lines 137–149): fold the loop body over the
lines, accumulating the emitted progress values and `last_progress`
(initially 0). -/
def runProgressLoop (video_duration : Option ℚ) (lines : List String) :
    List ℤ × ℤ :=
  lines.foldl (progressStep video_duration) ([], 0)

/-- The completion formula exactly as the specification words it:
`min(99, floor(elapsed_seconds / total_duration * 100))` with
`elapsed_seconds` the marker value in microseconds divided by 1 000 000.
Written from the spec, to be compared with the code's `lineStep`. -/
def specCompletion (ms : Nat) (total_duration : ℚ) : ℤ :=
  min 99 ⌊(ms : ℚ) / 1000000 / total_duration * 100⌋

/-- Invariant carried through the stream loop: the emitted values are
sorted, strictly positive, at most 99, and at most `last_progress`,
which is nonnegative. -/
def ProgressInv (acc : List ℤ × ℤ) : Prop :=
  acc.1.Sorted (· ≤ ·) ∧ (∀ x ∈ acc.1, 0 < x ∧ x ≤ 99) ∧
    0 ≤ acc.2 ∧ ∀ x ∈ acc.1, x ≤ acc.2

/-! ### Configuration (argparse, lines 174–189)

One record per recognized flag; the default values are the argparse
defaults. -/

structure Args where
  directory : String
  input_formats : Option (List String) := none
  output_format : String := ".mkv"
  bitrate : Option String := none
  resolution : Option String := none
  preset : Option String := none
  audio_codec : String := "aac"
  audio_bitrate : String := "128k"
  framerate : Option ℤ := none
  crf : Option ℤ := none
  container_format : Option String := none
  threads : Option ℤ := none
  audio_filter : Option String := none
  remove_metadata : Bool := false
  debug : Bool := false
  max_simultaneous : ℤ := 5

/-- Flags for the scale filter, guarded by `if args.resolution:`
(lines 102–103); Python truthiness makes the empty string skip the
block. -/
def resolutionFlags (args : Args) : List String :=
  match args.resolution with
  | some r => if r = "" then [] else ["-vf", "scale=" ++ r]
  | none => []

/-- Flags guarded by `if args.framerate:` (lines 105–106); the integer 0 is falsy. -/
def framerateFlags (args : Args) : List String :=
  match args.framerate with
  | some fr => if fr = 0 then [] else ["-r", toString fr]
  | none => []

/-- Flags guarded by `if args.crf is not None:` (lines 108–109) — an explicit `None`
test, so `--crf 0` is included. -/
def crfFlags (args : Args) : List String :=
  match args.crf with
  | some v => ["-crf", toString v]
  | none => []

/-- Flags guarded by `if args.threads:` (lines 111–112); the integer 0 is falsy. -/
def threadsFlags (args : Args) : List String :=
  match args.threads with
  | some t => if t = 0 then [] else ["-threads", toString t]
  | none => []

/-- Flags guarded by `if args.audio_filter:` (lines 114–115); the empty string is falsy. -/
def audioFilterFlags (args : Args) : List String :=
  match args.audio_filter with
  | some f => if f = "" then [] else ["-af", f]
  | none => []

/-- Flags guarded by `if args.remove_metadata:` (lines 117–118). -/
def metadataFlags (args : Args) : List String :=
  if args.remove_metadata then ["-map_metadata", "-1"] else []

/-- The ffmpeg command line built at lines 85–120: the fixed stem, then
each conditional `command.extend(...)` in source order, then the output
path appended last (line 120). -/
def build_command (old_full_name : String) (args : Args)
    (video_encoder preset video_bitrate output_name : String) : List String :=
  ["ffmpeg", "-i", old_full_name, "-c:v", video_encoder,
    "-b:v", video_bitrate, "-preset", preset, "-c:a", args.audio_codec,
    "-b:a", args.audio_bitrate, "-progress", "pipe:1"]
  ++ resolutionFlags args ++ framerateFlags args ++ crfFlags args
  ++ threadsFlags args ++ audioFilterFlags args ++ metadataFlags args
  ++ [output_name]

/-! ### One conversion job (`process_video`, lines 71–167) -/

/-- The observable behaviour of the external world during one
`process_video` call. -/
structure JobWorld where
  /-- outcome of the bitrate ffprobe (line 82 → lines 41–54) -/
  bitrateProbe : Option String := none
  /-- outcome of the duration ffprobe (line 83 → lines 57–68) -/
  durationProbe : Option String := none
  /-- the lines of the subprocess's merged stdout/stderr stream -/
  streamLines : List String := []
  /-- Value of `process.returncode` after `process.wait()` (line 151) -/
  returncode : ℤ := 0
  /-- whether a (partial) output file exists at `output_name` when the
  failure handler runs `os.path.exists` (line 165) -/
  outputExists : Bool := false
  /-- Injected fault: `some msg` models an unexpected exception, other
  than `CalledProcessError` (e.g. a path-construction or `os.makedirs`
  error) raised inside the `try` body.  `none` is the normal flow. -/
  fault : Option String := none

inductive PyExc where
  | calledProcessError (returncode : ℤ)
  | other (msg : String)
deriving DecidableEq

inductive Outcome where
  | success
  | failure
deriving DecidableEq

/-- What one `process_video` call did, when it returns normally. -/
structure JobResult where
  /-- the resolved output path `output_name` (lines 74–75) -/
  outputPath : String
  /-- the staged input path `old_full_name` (line 73) -/
  inputPath : String
  /-- the ffmpeg command line (lines 85–120) -/
  command : List String
  /-- progress values pushed to the per-file bar, in order -/
  emitted : List ℤ
  outcome : Outcome
  /-- whether `os.remove(output_name)` ran (line 166) -/
  removedOutput : Bool
  /-- whether `os.rename(old_full_name, file)` ran (line 167) -/
  restored : Bool
deriving DecidableEq

/-- The progress values a job pushed to its bar ([] for a job whose
exception escaped — its bar loop never completed normally). -/
def jobEmitted (x : Except PyExc JobResult) : List ℤ :=
  match x with
  | Except.ok r => r.emitted
  | Except.error _ => []

/-- Function `process_video` (lines 71–167).  `Except.error e` models an exception
escaping the function — only a non-`CalledProcessError` fault does, since
the `except` clause at line 162 names exactly
`subprocess.CalledProcessError`.  `Except.ok r` models a normal return;
`r` records the side effects performed.  On non-zero exit the handler
(lines 163–167) deletes the output file when present and renames the
staged file back to the original path; on zero exit the bar is forced to
100 (line 155). -/
def process_video (file : String) (args : Args) (gpu_type : String)
    (video_encoder preset : String) (old_directory : String) (w : JobWorld) :
    Except PyExc JobResult :=
  match w.fault with
  | some msg => Except.error (PyExc.other msg)
  | none =>
    let old_full_name := joinPath old_directory (relpath file args.directory)
    let output_name :=
      splitextBase (joinPath args.directory (relpath file args.directory))
        ++ args.output_format
    let video_bitrate :=
      match args.bitrate with
      | some b => if b = "" then get_original_bitrate w.bitrateProbe else b
      | none => get_original_bitrate w.bitrateProbe
    let video_duration := get_video_duration w.durationProbe
    let command :=
      build_command old_full_name args video_encoder preset video_bitrate output_name
    let res := runProgressLoop video_duration w.streamLines
    if w.returncode ≠ 0 then
      Except.ok {
        outputPath := output_name
        inputPath := old_full_name
        command := command
        emitted := res.1
        outcome := Outcome.failure
        removedOutput := w.outputExists
        restored := true }
    else
      Except.ok {
        outputPath := output_name
        inputPath := old_full_name
        command := command
        emitted := res.1 ++ [100]
        outcome := Outcome.success
        removedOutput := false
        restored := false }

/-! ### `main` after argument parsing (lines 196–239) -/

/-- Path `old_directory` (line 222): the staging subdirectory named `old`
under the scan root. -/
def old_directory (directory : String) : String := joinPath directory "old"

/-- The staging path of lines 228 and 73:
`os.path.join(old_directory, os.path.relpath(file, directory))`. -/
def stagedPath (directory file : String) : String :=
  joinPath (old_directory directory) (relpath file directory)

/-- The filesystem and dispatch actions of `main`, lines 221–233, in
program order. -/
inductive Event where
  /-- Models `os.mkdir(old_directory)` (lines 223–224) -/
  | mkStagingDir (path : String)
  /-- Models `os.makedirs` on the parent of the staged path (line 229) -/
  | makeDirs (path : String)
  /-- Models `os.rename(file, old_full_name)` (line 230) -/
  | stageRename (orig staged : String)
  /-- Models `executor.submit(process_video, file, ...)` (line 233) -/
  | dispatch (file : String)
deriving DecidableEq

def Event.isDispatch : Event → Bool
  | .dispatch _ => true
  | _ => false

/-- Action sequence of `main` (lines 221–233): nothing when the candidate
list is empty (`total_files > 0` guard, line 221); otherwise create the
staging directory, move **every** candidate into it (loop of lines
227–230), and only then submit one conversion job per candidate
(line 233). -/
def mainEvents (directory : String) (files : List String) : List Event :=
  if files.isEmpty then []
  else
    Event.mkStagingDir (old_directory directory) ::
      (files.flatMap (fun f =>
        [Event.makeDirs (dirName (stagedPath directory f)),
         Event.stageRename f (stagedPath directory f)])
      ++ files.map Event.dispatch)

/-- The futures list of line 233: one `process_video` call per candidate
file, in candidate order, each reading its own external world. -/
def batchJobs (files : List String) (args : Args)
    (gpu_type video_encoder preset : String) (worlds : String → JobWorld) :
    List (Except PyExc JobResult) :=
  files.map (fun f =>
    process_video f args gpu_type video_encoder preset
      (old_directory args.directory) (worlds f))

/-- The result-collection loop of lines 234–235: `future.result()`
re-raises a job's uncaught exception, which aborts the loop at the first
faulted future; when every job returned normally the loop visits every
result. -/
def collectResults : List (Except PyExc JobResult) → Except PyExc (List JobResult)
  | [] => Except.ok []
  | Except.error e :: _ => Except.error e
  | Except.ok r :: rest => (collectResults rest).map (fun l => r :: l)

/-! ### Worker pool (lines 232–233) -/

/-- The `max_workers` value passed to `ThreadPoolExecutor` at line 232:
`min(args.max_simultaneous, 5)` — the configured value hard-capped at 5. -/
def max_workers (args : Args) : ℤ := min args.max_simultaneous 5

/-- State of the worker pool: submitted-but-unstarted jobs, running jobs,
finished jobs. -/
structure SchedState where
  pending : List String
  running : List String
  done : List String
deriving DecidableEq

def initSched (files : List String) : SchedState := ⟨files, [], []⟩

/-- Executor semantics (the documented `ThreadPoolExecutor` contract for
`max_workers = k`): a pending job may start only while fewer than `k`
jobs run; a running job may finish at any time; jobs finish in any
order. -/
inductive SchedStep (k : ℤ) : SchedState → SchedState → Prop
  | start (f : String) (p₁ p₂ r d : List String) :
      (r.length : ℤ) < k →
      SchedStep k ⟨p₁ ++ f :: p₂, r, d⟩ ⟨p₁ ++ p₂, f :: r, d⟩
  | finish (f : String) (p r₁ r₂ d : List String) :
      SchedStep k ⟨p, r₁ ++ f :: r₂, d⟩ ⟨p, r₁ ++ r₂, f :: d⟩

/-- States the pool can be in during one batch over `files`. -/
def SchedReachable (k : ℤ) (files : List String) (s : SchedState) : Prop :=
  Relation.ReflTransGen (SchedStep k) (initSched files) s

/-! ## Theorems -/

theorem relpath_joinPath (start rest : String) :
    relpath (joinPath start rest) start = rest := by
  unfold relpath joinPath
  simp only [String.data_append]
  have h2 : start.data.length + 1 = (start.data ++ ['/']).length := by simp
  rw [h2, List.drop_left]

theorem mem_files_to_convert (root : String) (entries : List FsTree)
    (fmts : Option (List String)) (p : String) :
    p ∈ files_to_convert root entries fmts ↔
      ∃ rf ∈ osWalk root entries, censusKeep fmts rf.2 = true ∧ p = joinPath rf.1 rf.2 := by
  unfold files_to_convert
  rw [(List.mergeSort_perm _ _).mem_iff]
  simp only [List.mem_map, List.mem_filter]
  constructor
  · rintro ⟨rf, ⟨hmem, hkeep⟩, rfl⟩
    exact ⟨rf, hmem, hkeep, rfl⟩
  · rintro ⟨rf, hmem, hkeep, rfl⟩
    exact ⟨rf, ⟨hmem, hkeep⟩, rfl⟩

theorem files_to_convert_sorted (root : String) (entries : List FsTree)
    (fmts : Option (List String)) :
    List.Sorted (· ≤ ·) (files_to_convert root entries fmts) := by
  unfold files_to_convert
  exact List.sorted_mergeSort' _

/-- The census output depends only on the *multiset* of files the walk
enumerates: any two enumerations of the same unmodified tree (which may
list directories in different orders) produce the identical sorted
output. -/
theorem files_to_convert_deterministic (root : String)
    (entries₁ entries₂ : List FsTree) (fmts : Option (List String))
    (h : (osWalk root entries₁).Perm (osWalk root entries₂)) :
    files_to_convert root entries₁ fmts = files_to_convert root entries₂ fmts := by
  unfold files_to_convert
  apply @List.eq_of_perm_of_sorted String (· ≤ ·) inferInstance
  · exact ((List.mergeSort_perm _ _).trans
      ((h.filter _).map _)).trans (List.mergeSort_perm _ _).symm
  · exact List.sorted_mergeSort' _
  · exact List.sorted_mergeSort' _

theorem schedReachable_running_le (k : ℤ) (hk : 0 ≤ k) (files : List String)
    (s : SchedState) (h : SchedReachable k files s) :
    (s.running.length : ℤ) ≤ k := by
  induction h with
  | refl => simpa [initSched] using hk
  | tail _ step ih =>
    cases step with
    | start f p₁ p₂ r d hr =>
      simpa using hr
    | finish f p r₁ r₂ d =>
      simp only [List.length_append, List.length_cons] at ih ⊢
      push_cast at ih ⊢
      omega

theorem lineStep_bound (d : Option ℚ) (last : ℤ) (line : String) (p : ℤ)
    (h : lineStep d last line = some p) : last < p ∧ p ≤ 99 := by
  unfold lineStep at h
  rcases hp : parseOutTime line.data with _ | ms <;> rw [hp] at h
  · simp at h
  · rcases d with _ | dv
    · simp at h
    · simp only at h
      split at h
      · simp at h
      · split at h
        · rename_i hgt
          cases h
          exact ⟨hgt, min_le_left _ _⟩
        · simp at h

theorem progressStep_inv (d : Option ℚ) (acc : List ℤ × ℤ) (line : String)
    (h : ProgressInv acc) : ProgressInv (progressStep d acc line) := by
  unfold progressStep
  cases hs : lineStep d acc.2 line with
  | none => exact h
  | some p =>
    obtain ⟨hlt, hle⟩ := lineStep_bound d acc.2 line p hs
    obtain ⟨hsort, hbound, hpos, hlast⟩ := h
    refine ⟨?_, ?_, ?_, ?_⟩
    · apply List.pairwise_append.mpr
      refine ⟨hsort, List.pairwise_singleton _ _, ?_⟩
      intro a ha b hb
      rw [List.mem_singleton] at hb
      subst hb
      exact le_trans (hlast a ha) (le_of_lt hlt)
    · intro x hx
      rcases List.mem_append.mp hx with hx | hx
      · exact hbound x hx
      · rw [List.mem_singleton] at hx
        subst hx
        exact ⟨lt_of_le_of_lt hpos hlt, hle⟩
    · exact le_trans hpos (le_of_lt hlt)
    · intro x hx
      rcases List.mem_append.mp hx with hx | hx
      · exact le_trans (hlast x hx) (le_of_lt hlt)
      · rw [List.mem_singleton] at hx
        subst hx
        exact le_rfl

theorem foldl_progressStep_inv (d : Option ℚ) (lines : List String) :
    ∀ acc, ProgressInv acc → ProgressInv (lines.foldl (progressStep d) acc) := by
  induction lines with
  | nil => intro acc h; exact h
  | cons line rest ih =>
    intro acc h
    exact ih _ (progressStep_inv d acc line h)

theorem runProgressLoop_inv (d : Option ℚ) (lines : List String) :
    ProgressInv (runProgressLoop d lines) := by
  unfold runProgressLoop
  apply foldl_progressStep_inv
  refine ⟨List.sorted_nil, ?_, le_refl 0, ?_⟩
  · intro x hx
    cases hx
  · intro x hx
    cases hx

/-- With a falsy `video_duration` (Python `None` or `0.0`) no line emits
anything. -/
theorem lineStep_falsy (d : Option ℚ) (last : ℤ) (line : String)
    (hd : d = none ∨ d = some 0) : lineStep d last line = none := by
  unfold lineStep
  rcases hd with rfl | rfl <;> rcases hp : parseOutTime line.data with _ | ms <;> simp

theorem runProgressLoop_falsy (d : Option ℚ) (lines : List String)
    (hd : d = none ∨ d = some 0) : runProgressLoop d lines = ([], 0) := by
  unfold runProgressLoop
  induction lines with
  | nil => rfl
  | cons line rest ih =>
    rw [List.foldl_cons]
    have : progressStep d ([], 0) line = ([], 0) := by
      unfold progressStep
      rw [lineStep_falsy d 0 line hd]
    rw [this]
    exact ih

/-- For a positive duration the code's per-line step agrees with the
spec's formula `specCompletion`: Python `int()` truncation coincides with
`floor` on the nonnegative quotient. -/
theorem lineStep_eq_spec (d : ℚ) (last : ℤ) (line : String) (hd : 0 < d) :
    lineStep (some d) last line =
      match parseOutTime line.data with
      | none => none
      | some ms =>
        if specCompletion ms d > last then some (specCompletion ms d) else none := by
  unfold lineStep specCompletion
  rcases hp : parseOutTime line.data with _ | ms
  · rfl
  · simp only
    rw [if_neg (ne_of_gt hd)]
    have hq : (0 : ℚ) ≤ (ms : ℚ) / 1000000 / d * 100 := by positivity
    have : pyInt ((ms : ℚ) / 1000000 / d * 100) = ⌊(ms : ℚ) / 1000000 / d * 100⌋ := by
      unfold pyInt
      rw [if_pos hq]
    rw [this]

/-- The staged path is never the original path: staging inserts the
`"old"` component, making the path four characters longer. -/
theorem stagedPath_ne (dir rest : String) :
    stagedPath dir (joinPath dir rest) ≠ joinPath dir rest := by
  intro h
  have hs : stagedPath dir (joinPath dir rest) = dir ++ "/" ++ "old" ++ "/" ++ rest := by
    unfold stagedPath old_directory
    rw [relpath_joinPath]
    rfl
  rw [hs] at h
  have hlen := congrArg (fun s => s.data.length) h
  simp only [joinPath, String.data_append, List.length_append,
    List.length_cons, List.length_nil] at hlen
  omega

theorem process_video_fault (file : String) (args : Args)
    (g ve pr od : String) (w : JobWorld) (msg : String)
    (hf : w.fault = some msg) :
    process_video file args g ve pr od w = Except.error (PyExc.other msg) := by
  unfold process_video
  rw [hf]

theorem process_video_fail (file : String) (args : Args)
    (g ve pr od : String) (w : JobWorld)
    (hf : w.fault = none) (hrc : w.returncode ≠ 0) :
    process_video file args g ve pr od w =
      Except.ok {
        outputPath := splitextBase (joinPath args.directory (relpath file args.directory))
          ++ args.output_format
        inputPath := joinPath od (relpath file args.directory)
        command := build_command (joinPath od (relpath file args.directory)) args ve pr
          (match args.bitrate with
           | some b => if b = "" then get_original_bitrate w.bitrateProbe else b
           | none => get_original_bitrate w.bitrateProbe)
          (splitextBase (joinPath args.directory (relpath file args.directory))
            ++ args.output_format)
        emitted := (runProgressLoop (get_video_duration w.durationProbe) w.streamLines).1
        outcome := Outcome.failure
        removedOutput := w.outputExists
        restored := true } := by
  unfold process_video
  rw [hf]
  simp only [if_pos hrc]

theorem process_video_ok (file : String) (args : Args)
    (g ve pr od : String) (w : JobWorld)
    (hf : w.fault = none) (hrc : w.returncode = 0) :
    process_video file args g ve pr od w =
      Except.ok {
        outputPath := splitextBase (joinPath args.directory (relpath file args.directory))
          ++ args.output_format
        inputPath := joinPath od (relpath file args.directory)
        command := build_command (joinPath od (relpath file args.directory)) args ve pr
          (match args.bitrate with
           | some b => if b = "" then get_original_bitrate w.bitrateProbe else b
           | none => get_original_bitrate w.bitrateProbe)
          (splitextBase (joinPath args.directory (relpath file args.directory))
            ++ args.output_format)
        emitted := (runProgressLoop (get_video_duration w.durationProbe) w.streamLines).1 ++ [100]
        outcome := Outcome.success
        removedOutput := false
        restored := false } := by
  unfold process_video
  rw [hf]
  simp only [hrc]
  rw [if_neg (fun hcon => hcon rfl)]

theorem collectResults_ok (xs : List (Except PyExc JobResult))
    (h : ∀ x ∈ xs, ∃ r, x = Except.ok r) :
    ∃ l, collectResults xs = Except.ok l ∧ l.length = xs.length := by
  induction xs with
  | nil => exact ⟨[], rfl, rfl⟩
  | cons x rest ih =>
    obtain ⟨r, rfl⟩ := h x (List.mem_cons_self x rest)
    obtain ⟨l, hl, hlen⟩ := ih (fun y hy => h y (List.mem_cons_of_mem _ hy))
    refine ⟨r :: l, ?_, by simp [hlen]⟩
    unfold collectResults
    rw [hl]
    rfl

theorem collectResults_error (xs ys : List (Except PyExc JobResult)) (e : PyExc)
    (h : ∀ x ∈ xs, ∃ r, x = Except.ok r) :
    collectResults (xs ++ Except.error e :: ys) = Except.error e := by
  induction xs with
  | nil => rfl
  | cons x rest ih =>
    obtain ⟨r, rfl⟩ := h x (List.mem_cons_self x rest)
    have := ih (fun y hy => h y (List.mem_cons_of_mem _ hy))
    show collectResults (Except.ok r :: (rest ++ Except.error e :: ys)) = Except.error e
    unfold collectResults
    rw [this]
    rfl

theorem mem_mainEvents_stage (dir : String) (files : List String) (f : String)
    (hne : files ≠ []) (hf : f ∈ files) :
    Event.stageRename f (stagedPath dir f) ∈ mainEvents dir files ∧
      Event.makeDirs (dirName (stagedPath dir f)) ∈ mainEvents dir files := by
  unfold mainEvents
  rw [if_neg (by simpa using hne)]
  constructor
  · apply List.mem_cons_of_mem
    apply List.mem_append_left
    apply List.mem_flatMap.mpr
    exact ⟨f, hf, by simp⟩
  · apply List.mem_cons_of_mem
    apply List.mem_append_left
    apply List.mem_flatMap.mpr
    exact ⟨f, hf, by simp⟩

theorem events_split_barrier (l pre post : List Event) (hl : l = pre ++ post)
    (hpre_nd : ∀ e ∈ pre, e.isDispatch = false)
    (hpost_d : ∀ e ∈ post, e.isDispatch = true) :
    ∀ i j (hi : i < l.length) (hj : j < l.length),
      (l[i]).isDispatch = false → (l[j]).isDispatch = true → i < j := by
  subst hl
  intro i j hi hj hsi hdj
  have hjge : pre.length ≤ j := by
    by_contra hlt
    push_neg at hlt
    rw [List.getElem_append_left hlt] at hdj
    have := hpre_nd _ (List.getElem_mem hlt)
    rw [this] at hdj
    exact absurd hdj (by simp)
  have hilt : i < pre.length := by
    by_contra hge
    push_neg at hge
    rw [List.getElem_append_right hge] at hsi
    have hlen : i - pre.length < post.length := by
      rw [List.length_append] at hi
      omega
    have := hpost_d _ (List.getElem_mem hlen)
    rw [this] at hsi
    exact absurd hsi (by simp)
  omega

theorem mainEvents_barrier (dir : String) (files : List String) (i j : Nat)
    (hi : i < (mainEvents dir files).length) (hj : j < (mainEvents dir files).length)
    (hsi : ((mainEvents dir files)[i]).isDispatch = false)
    (hdj : ((mainEvents dir files)[j]).isDispatch = true) : i < j := by
  by_cases hne : files.isEmpty
  · exfalso
    unfold mainEvents at hi
    rw [if_pos hne] at hi
    exact absurd hi (by simp)
  · refine events_split_barrier (mainEvents dir files)
      (Event.mkStagingDir (old_directory dir) ::
        files.flatMap (fun f =>
          [Event.makeDirs (dirName (stagedPath dir f)),
           Event.stageRename f (stagedPath dir f)]))
      (files.map Event.dispatch) ?_ ?_ ?_ i j hi hj hsi hdj
    · unfold mainEvents
      rw [if_neg hne]
      rfl
    · intro e he
      rcases List.mem_cons.mp he with rfl | he
      · rfl
      · obtain ⟨f, _, hin⟩ := List.mem_flatMap.mp he
        rcases List.mem_cons.mp hin with rfl | hin
        · rfl
        · rw [List.mem_singleton] at hin
          subst hin
          rfl
    · intro e he
      obtain ⟨f, _, rfl⟩ := List.mem_map.mp he
      rfl

theorem build_command_take3 (old : String) (args : Args) (ve pr vb out : String) :
    (build_command old args ve pr vb out).take 3 = ["ffmpeg", "-i", old] := by
  simp [build_command]

theorem process_video_isOk (file : String) (args : Args)
    (g ve pr od : String) (w : JobWorld) (hf : w.fault = none) :
    ∃ r, process_video file args g ve pr od w = Except.ok r := by
  by_cases hrc : w.returncode = 0
  · exact ⟨_, process_video_ok file args g ve pr od w hf hrc⟩
  · exact ⟨_, process_video_fail file args g ve pr od w hf hrc⟩

/-! ## Claims -/

/-- C3: for every progress-stream line, when the job's total duration is
known (a positive rational — claim C10 records that `0.0` is treated as
unknown), the code's per-line behaviour is exactly the specification
formula: it computes `completion = min(99, floor(elapsed_seconds /
total_duration * 100))` with `elapsed_seconds` the marker's integer value
in microseconds divided by 1 000 000, and emits the value only when it
strictly exceeds the previously emitted value; a line without the marker
is ignored. -/
theorem claim_C3 (d : ℚ) (last : ℤ) (line : String) (hd : 0 < d) :
    lineStep (some d) last line =
      match parseOutTime line.data with
      | none => none
      | some ms =>
        if specCompletion ms d > last then some (specCompletion ms d) else none :=
  lineStep_eq_spec d last line hd

/-- Witness for C3 at a concrete stream line: 5 000 000 µs elapsed of a
10-second duration emits 50. -/
theorem claim_C3_witness :
    (0 : ℚ) < 10 ∧
    lineStep (some 10) 0 "out_time_ms=5000000" =
      (match parseOutTime "out_time_ms=5000000".data with
       | none => none
       | some ms =>
         if specCompletion ms 10 > 0 then some (specCompletion ms 10) else none) ∧
    lineStep (some 10) 0 "out_time_ms=5000000" = some 50 := by
  refine ⟨by norm_num, claim_C3 10 0 "out_time_ms=5000000" (by norm_num), ?_⟩
  have hp : parseOutTime "out_time_ms=5000000".data = some 5000000 := by decide
  simp only [lineStep, hp]
  norm_num [pyInt]

/-- C9: an input-format filter that is present but empty selects no
files: `str.endswith(())` is false for every name, so the census is
empty. -/
theorem claim_C9 (root : String) (entries : List FsTree) :
    files_to_convert root entries (some []) = [] := by
  unfold files_to_convert
  have hf : ((osWalk root entries).filter (fun rf => censusKeep (some []) rf.2)) = [] := by
    rw [List.filter_eq_nil_iff]
    intro a _
    simp [censusKeep, pyEndsWith]
  rw [hf]
  simp

/-- C10: the division by the total duration happens only when the probed
duration is known and non-zero — a duration of `0.0` is falsy in the
line-142 guard, so it behaves exactly like an unknown (`None`) duration
and emits nothing; no division by zero can occur. -/
theorem claim_C10 (last : ℤ) (line : String) (lines : List String) :
    lineStep (some 0) last line = none ∧
    lineStep none last line = none ∧
    runProgressLoop (some 0) lines = runProgressLoop none lines ∧
    runProgressLoop (some 0) lines = ([], 0) := by
  refine ⟨lineStep_falsy _ _ _ (Or.inr rfl), lineStep_falsy _ _ _ (Or.inl rfl), ?_, ?_⟩
  · rw [runProgressLoop_falsy _ _ (Or.inr rfl), runProgressLoop_falsy _ _ (Or.inl rfl)]
  · exact runProgressLoop_falsy _ _ (Or.inr rfl)

/-- C1: when the encoding subprocess exits non-zero (and no unrelated
fault occurs), the job returns normally with outcome Failure, deletes
the partial output at the resolved output path exactly when it exists
(`os.path.exists` guard — absence is tolerated), and renames the staged
file back to the original path; the batch submits exactly one job per
candidate (no retry) and, when no job raises an uncaught exception, the
collection loop visits every candidate's result (the batch continues
past failures, which are handled inside `process_video`). -/
theorem claim_C1 (file : String) (args : Args) (g ve pr : String) (w : JobWorld)
    (files : List String) (worlds : String → JobWorld)
    (hf : w.fault = none) (hrc : w.returncode ≠ 0)
    (hws : ∀ f2, (worlds f2).fault = none) :
    ((process_video file args g ve pr (old_directory args.directory) w).toOption.map
        (fun r => (r.outcome, r.removedOutput, r.restored, r.outputPath))
      = some (Outcome.failure, w.outputExists, true,
          splitextBase (joinPath args.directory (relpath file args.directory))
            ++ args.output_format)) ∧
    (batchJobs files args g ve pr worlds).length = files.length ∧
    (∃ l, collectResults (batchJobs files args g ve pr worlds) = Except.ok l ∧
      l.length = files.length) := by
  refine ⟨?_, by simp [batchJobs], ?_⟩
  · rw [process_video_fail file args g ve pr _ w hf hrc]
    rfl
  · obtain ⟨l, hl, hlen⟩ := collectResults_ok (batchJobs files args g ve pr worlds)
      (by
        intro x hx
        unfold batchJobs at hx
        obtain ⟨f2, _, rfl⟩ := List.mem_map.mp hx
        exact process_video_isOk _ _ _ _ _ _ _ (hws f2))
    exact ⟨l, hl, by rw [hlen]; simp [batchJobs]⟩

/-- Witness for C1: one candidate whose subprocess exits 1 while a
partial output exists. -/
theorem claim_C1_witness :
    ((process_video "root/a.mp4" { directory := "root" } "cpu" "libx265" "veryslow"
        (old_directory "root")
        { returncode := 1, outputExists := true }).toOption.map
        (fun r => (r.outcome, r.removedOutput, r.restored, r.outputPath))
      = some (Outcome.failure, true, true,
          splitextBase (joinPath "root" (relpath "root/a.mp4" "root")) ++ ".mkv")) ∧
    (batchJobs ["root/a.mp4"] { directory := "root" } "cpu" "libx265" "veryslow"
        (fun _ => { returncode := 1, outputExists := true })).length = 1 ∧
    (∃ l, collectResults (batchJobs ["root/a.mp4"] { directory := "root" } "cpu"
        "libx265" "veryslow"
        (fun _ => { returncode := 1, outputExists := true })) = Except.ok l ∧
      l.length = 1) :=
  claim_C1 "root/a.mp4" { directory := "root" } "cpu" "libx265" "veryslow"
    { returncode := 1, outputExists := true } ["root/a.mp4"]
    (fun _ => { returncode := 1, outputExists := true }) rfl (by decide) (fun _ => rfl)

theorem process_video_input_cmd (file : String) (args : Args)
    (g ve pr od : String) (w : JobWorld) (hf : w.fault = none) :
    (process_video file args g ve pr od w).toOption.map
      (fun r => (r.inputPath, r.command.take 3)) =
    some (joinPath od (relpath file args.directory),
      ["ffmpeg", "-i", joinPath od (relpath file args.directory)]) := by
  by_cases hrc : w.returncode = 0
  · rw [process_video_ok file args g ve pr od w hf hrc]
    simp [Except.toOption, build_command_take3]
  · rw [process_video_fail file args g ve pr od w hf hrc]
    simp [Except.toOption, build_command_take3]

/-- C2: with a nonempty candidate set, `main` creates the staging
directory `"old"` under the scan root, renames every candidate to its
staging path (same relative path under `old/`, with `os.makedirs` for
the intermediate directories first), and all of this precedes every job
dispatch in the event order; the job for a candidate reads its ffmpeg
input (`-i` argument) from the staged path, which is never the original
path. -/
theorem claim_C2 (dir rest f : String) (files : List String) (args : Args)
    (g ve pr : String) (w : JobWorld)
    (hne : files ≠ []) (hf : f ∈ files) (hunder : f = joinPath dir rest)
    (hdir : args.directory = dir) (hw : w.fault = none) :
    old_directory dir = joinPath dir "old" ∧
    Event.stageRename f (stagedPath dir f) ∈ mainEvents dir files ∧
    Event.makeDirs (dirName (stagedPath dir f)) ∈ mainEvents dir files ∧
    relpath (stagedPath dir f) (old_directory dir) = relpath f dir ∧
    (∀ i j (hi : i < (mainEvents dir files).length)
       (hj : j < (mainEvents dir files).length),
       ((mainEvents dir files)[i]).isDispatch = false →
       ((mainEvents dir files)[j]).isDispatch = true → i < j) ∧
    ((process_video f args g ve pr (old_directory dir) w).toOption.map
        (fun r => (r.inputPath, r.command.take 3)))
      = some (stagedPath dir f, ["ffmpeg", "-i", stagedPath dir f]) ∧
    stagedPath dir f ≠ f := by
  obtain ⟨hstage, hmk⟩ := mem_mainEvents_stage dir files f hne hf
  refine ⟨rfl, hstage, hmk, ?_, mainEvents_barrier dir files, ?_, ?_⟩
  · unfold stagedPath
    exact relpath_joinPath _ _
  · have := process_video_input_cmd f args g ve pr (old_directory dir) w hw
    rw [hdir] at this
    exact this
  · rw [hunder]
    exact stagedPath_ne dir rest

/-- Witness for C2: a one-candidate batch under scan root `"root"`. -/
theorem claim_C2_witness :
    old_directory "root" = joinPath "root" "old" ∧
    Event.stageRename "root/a.mp4" (stagedPath "root" "root/a.mp4")
      ∈ mainEvents "root" ["root/a.mp4"] ∧
    Event.makeDirs (dirName (stagedPath "root" "root/a.mp4"))
      ∈ mainEvents "root" ["root/a.mp4"] ∧
    relpath (stagedPath "root" "root/a.mp4") (old_directory "root")
      = relpath "root/a.mp4" "root" ∧
    (∀ i j (hi : i < (mainEvents "root" ["root/a.mp4"]).length)
       (hj : j < (mainEvents "root" ["root/a.mp4"]).length),
       ((mainEvents "root" ["root/a.mp4"])[i]).isDispatch = false →
       ((mainEvents "root" ["root/a.mp4"])[j]).isDispatch = true → i < j) ∧
    ((process_video "root/a.mp4" { directory := "root" } "cpu" "libx265" "veryslow"
        (old_directory "root") { }).toOption.map
        (fun r => (r.inputPath, r.command.take 3)))
      = some (stagedPath "root" "root/a.mp4",
          ["ffmpeg", "-i", stagedPath "root" "root/a.mp4"]) ∧
    stagedPath "root" "root/a.mp4" ≠ "root/a.mp4" :=
  claim_C2 "root" "a.mp4" "root/a.mp4" ["root/a.mp4"] { directory := "root" }
    "cpu" "libx265" "veryslow" { } (by decide) (by decide) rfl rfl rfl

/-- Counterexample to C4 as stated: the claim defines success as "exit
code 0 **and** the expected output file present", but the code never
tests for the output file — with exit code 0 and no output file present
it still forces progress to 100 and reports success (lines 152–156 test
only the return code). -/
theorem claim_C4_counterexample :
    ((process_video "root/a.mp4" { directory := "root" } "cpu" "libx265" "veryslow"
        (old_directory "root")
        { returncode := 0, outputExists := false }).toOption.map
      (fun r => (r.emitted, r.outcome))) = some ([100], Outcome.success) := by rfl

/-- C4 (amended): for every job that runs to normal completion, the
emitted progress sequence is non-decreasing with every value in
[0, 100], and the value 100 is emitted exactly once and only upon
success — where success means the subprocess exits with code 0 (the
code does not additionally check that the output file is present). -/
theorem claim_C4 (file : String) (args : Args) (g ve pr od : String)
    (w : JobWorld) (hf : w.fault = none) :
    (jobEmitted (process_video file args g ve pr od w)).Sorted (· ≤ ·) ∧
    (∀ x ∈ jobEmitted (process_video file args g ve pr od w), 0 ≤ x ∧ x ≤ 100) ∧
    (jobEmitted (process_video file args g ve pr od w)).count 100
      = (if w.returncode = 0 then 1 else 0) := by
  obtain ⟨hsort, hbound, -, -⟩ :=
    runProgressLoop_inv (get_video_duration w.durationProbe) w.streamLines
  by_cases hrc : w.returncode = 0
  · rw [process_video_ok file args g ve pr od w hf hrc]
    simp only [jobEmitted]
    refine ⟨?_, ?_, ?_⟩
    · apply List.pairwise_append.mpr
      refine ⟨hsort, List.pairwise_singleton _ _, ?_⟩
      intro a ha b hb
      rw [List.mem_singleton] at hb
      subst hb
      have := (hbound a ha).2
      omega
    · intro x hx
      rcases List.mem_append.mp hx with hx | hx
      · obtain ⟨h1, h2⟩ := hbound x hx
        exact ⟨le_of_lt h1, by omega⟩
      · rw [List.mem_singleton] at hx
        subst hx
        exact ⟨by norm_num, le_refl 100⟩
    · rw [if_pos hrc, List.count_append]
      have h0 : ((runProgressLoop (get_video_duration w.durationProbe)
          w.streamLines).1).count 100 = 0 := by
        rw [List.count_eq_zero]
        intro hmem
        have := (hbound 100 hmem).2
        omega
      rw [h0]
      simp
  · rw [process_video_fail file args g ve pr od w hf hrc]
    simp only [jobEmitted]
    refine ⟨hsort, ?_, ?_⟩
    · intro x hx
      obtain ⟨h1, h2⟩ := hbound x hx
      exact ⟨le_of_lt h1, by omega⟩
    · rw [if_neg hrc, List.count_eq_zero]
      intro hmem
      have := (hbound 100 hmem).2
      omega

/-- Witness for C4 (amended) at a concrete successful job. -/
theorem claim_C4_witness :
    (jobEmitted (process_video "root/a.mp4" { directory := "root" } "cpu" "libx265"
      "veryslow" (old_directory "root") { })).Sorted (· ≤ ·) ∧
    (∀ x ∈ jobEmitted (process_video "root/a.mp4" { directory := "root" } "cpu"
      "libx265" "veryslow" (old_directory "root") { }), 0 ≤ x ∧ x ≤ 100) ∧
    (jobEmitted (process_video "root/a.mp4" { directory := "root" } "cpu" "libx265"
      "veryslow" (old_directory "root") { })).count 100 = 1 :=
  claim_C4 "root/a.mp4" { directory := "root" } "cpu" "libx265" "veryslow"
    (old_directory "root") { } rfl

/-- Counterexample to C5 as stated: an unexpected internal fault (any
exception other than `CalledProcessError`, e.g. a path-construction
error) is **not** caught at the per-job boundary — the `except` clause at
line 162 names only `subprocess.CalledProcessError` — so the job's future
holds the exception, `future.result()` re-raises it, and the batch's
result-collection loop terminates instead of continuing. -/
theorem claim_C5_counterexample :
    process_video "root/a.mp4" { directory := "root" } "cpu" "libx265" "veryslow"
        (old_directory "root") { fault := some "path error" }
      = Except.error (PyExc.other "path error") ∧
    collectResults
        (batchJobs ["root/a.mp4", "root/b.mp4"] { directory := "root" } "cpu"
          "libx265" "veryslow"
          (fun f => if f = "root/a.mp4" then { fault := some "path error" } else { }))
      = Except.error (PyExc.other "path error") := by
  constructor <;> rfl

/-- C5 (amended): only `CalledProcessError` (raised for a non-zero
subprocess exit) is caught at the per-job boundary; any other unexpected
internal fault escapes the job as an exception, and the scheduler's
result-collection loop re-raises it at that job's `future.result()`,
abandoning the collection of the remaining results — while every
fault-free job (whatever its exit code) does return normally with an
outcome. -/
theorem claim_C5 (file : String) (args : Args) (g ve pr od : String)
    (w : JobWorld) (msg : String) (xs ys : List (Except PyExc JobResult)) (e : PyExc)
    (hflt : w.fault = some msg) (hok : ∀ x ∈ xs, ∃ r, x = Except.ok r) :
    process_video file args g ve pr od w = Except.error (PyExc.other msg) ∧
    collectResults (xs ++ Except.error e :: ys) = Except.error e ∧
    (∀ w2 : JobWorld, w2.fault = none →
      ∃ r, process_video file args g ve pr od w2 = Except.ok r) :=
  ⟨process_video_fault file args g ve pr od w msg hflt,
   collectResults_error xs ys e hok,
   fun w2 hw2 => process_video_isOk file args g ve pr od w2 hw2⟩

/-- Witness for C5 (amended) at a concrete faulting job. -/
theorem claim_C5_witness :
    process_video "root/a.mp4" { directory := "root" } "cpu" "libx265" "veryslow"
        (old_directory "root") { fault := some "boom" }
      = Except.error (PyExc.other "boom") ∧
    collectResults ([] ++ Except.error (PyExc.other "boom") :: [])
      = Except.error (PyExc.other "boom") ∧
    (∀ w2 : JobWorld, w2.fault = none →
      ∃ r, process_video "root/a.mp4" { directory := "root" } "cpu" "libx265"
        "veryslow" (old_directory "root") w2 = Except.ok r) :=
  claim_C5 "root/a.mp4" { directory := "root" } "cpu" "libx265" "veryslow"
    (old_directory "root") { fault := some "boom" } "boom" [] []
    (PyExc.other "boom") rfl (fun x hx => absurd hx (List.not_mem_nil x))

/-- C6: the census keeps a file exactly when the filter is absent or the
filename ends with one of the extensions (case-sensitive suffix match),
returns a materialized list sorted lexicographically, and depends only
on the set of files present — two walks of the same unmodified tree
(whatever order the directory entries are listed in) give identical
ordered output. -/
theorem claim_C6 (root : String) (e₁ e₂ : List FsTree)
    (fmts : Option (List String)) (p : String)
    (h : (osWalk root e₁).Perm (osWalk root e₂)) :
    (p ∈ files_to_convert root e₁ fmts ↔
      ∃ rf ∈ osWalk root e₁, censusKeep fmts rf.2 = true ∧ p = joinPath rf.1 rf.2) ∧
    List.Sorted (· ≤ ·) (files_to_convert root e₁ fmts) ∧
    files_to_convert root e₁ fmts = files_to_convert root e₂ fmts :=
  ⟨mem_files_to_convert root e₁ fmts p, files_to_convert_sorted root e₁ fmts,
   files_to_convert_deterministic root e₁ e₂ fmts h⟩

/-- Witness for C6: two listing orders of a directory holding `a.mp4`
and `b.ts`, filtered to `.mp4`. -/
theorem claim_C6_witness :
    ("r/a.mp4" ∈ files_to_convert "r" [FsTree.file "b.ts", FsTree.file "a.mp4"]
        (some [".mp4"]) ↔
      ∃ rf ∈ osWalk "r" [FsTree.file "b.ts", FsTree.file "a.mp4"],
        censusKeep (some [".mp4"]) rf.2 = true ∧ "r/a.mp4" = joinPath rf.1 rf.2) ∧
    List.Sorted (· ≤ ·)
      (files_to_convert "r" [FsTree.file "b.ts", FsTree.file "a.mp4"] (some [".mp4"])) ∧
    files_to_convert "r" [FsTree.file "b.ts", FsTree.file "a.mp4"] (some [".mp4"])
      = files_to_convert "r" [FsTree.file "a.mp4", FsTree.file "b.ts"] (some [".mp4"]) :=
  claim_C6 "r" [FsTree.file "b.ts", FsTree.file "a.mp4"]
    [FsTree.file "a.mp4", FsTree.file "b.ts"] (some [".mp4"]) "r/a.mp4"
    (by simp only [osWalk]; decide)

/-- C7: the media probes never let an exception escape — every failed,
empty, `'N/A'` or unparsable bitrate probe yields the fixed fallback
`"6000k"`, a failed or unparsable duration probe yields the sentinel
`None`, an unknown duration disables all percentage emissions, and the
job nevertheless runs to normal completion (reporting terminal 100 on
success despite having no intermediate percentages). -/
theorem claim_C7 (p : Option String) (s : String) (lines : List String)
    (file : String) (args : Args) (g ve pr od : String) (w : JobWorld)
    (hp : p = none ∨ p = some "N/A" ∨ p = some ""
        ∨ (∃ t, p = some t ∧ t.toInt? = none))
    (hs : pyFloat? s = none) (hw : w.fault = none) (hdur : w.durationProbe = none) :
    get_original_bitrate p = "6000k" ∧
    get_video_duration none = none ∧
    get_video_duration (some s) = none ∧
    runProgressLoop none lines = ([], 0) ∧
    (∃ r, process_video file args g ve pr od w = Except.ok r ∧
      r.emitted = if w.returncode = 0 then [100] else []) := by
  refine ⟨?_, rfl, ?_, runProgressLoop_falsy _ _ (Or.inl rfl), ?_⟩
  · rcases hp with rfl | rfl | rfl | ⟨t, rfl, ht⟩
    · rfl
    · rfl
    · rfl
    · simp only [get_original_bitrate, ht]
      split <;> rfl
  · show pyFloat? s = none
    exact hs
  · by_cases hrc : w.returncode = 0
    · refine ⟨_, process_video_ok file args g ve pr od w hw hrc, ?_⟩
      rw [if_pos hrc]
      show (runProgressLoop (get_video_duration w.durationProbe) w.streamLines).1
          ++ [100] = [100]
      rw [hdur,
        runProgressLoop_falsy (get_video_duration none) w.streamLines (Or.inl rfl)]
      rfl
    · refine ⟨_, process_video_fail file args g ve pr od w hw hrc, ?_⟩
      rw [if_neg hrc]
      show (runProgressLoop (get_video_duration w.durationProbe) w.streamLines).1 = []
      rw [hdur,
        runProgressLoop_falsy (get_video_duration none) w.streamLines (Or.inl rfl)]

/-- Witness for C7: a failed bitrate probe, an `'N/A'` duration text,
and a successful job whose duration probe raised. -/
theorem claim_C7_witness :
    get_original_bitrate none = "6000k" ∧
    get_video_duration none = none ∧
    get_video_duration (some "N/A") = none ∧
    runProgressLoop none ["frame=1"] = ([], 0) ∧
    (∃ r, process_video "root/a.mp4" { directory := "root" } "cpu" "libx265"
        "veryslow" (old_directory "root") { } = Except.ok r ∧
      r.emitted = if (({ } : JobWorld)).returncode = 0 then [100] else []) :=
  claim_C7 none "N/A" ["frame=1"] "root/a.mp4" { directory := "root" } "cpu"
    "libx265" "veryslow" (old_directory "root") { } (Or.inl rfl) (by decide) rfl rfl

/-- C8: the worker pool is created with
`max_workers = min(args.max_simultaneous, 5)` — the configured value
hard-capped at 5, defaulting to 5 — and under the executor's semantics
no reachable state has more than that many jobs running at once. -/
theorem claim_C8 (args : Args) (d : String) (files : List String) (s : SchedState)
    (hms : 0 < args.max_simultaneous)
    (hreach : SchedReachable (max_workers args) files s) :
    max_workers args = min args.max_simultaneous 5 ∧
    ({ directory := d } : Args).max_simultaneous = 5 ∧
    (s.running.length : ℤ) ≤ min args.max_simultaneous 5 ∧
    (s.running.length : ℤ) ≤ 5 ∧
    (s.running.length : ℤ) ≤ args.max_simultaneous := by
  have hk : (0 : ℤ) ≤ max_workers args := le_min (le_of_lt hms) (by norm_num)
  have hb := schedReachable_running_le (max_workers args) hk files s hreach
  exact ⟨rfl, rfl, hb, le_trans hb (min_le_right _ _), le_trans hb (min_le_left _ _)⟩

/-- Witness for C8: the default configuration, one candidate, the
initial pool state. -/
theorem claim_C8_witness :
    max_workers { directory := "root" }
      = min ({ directory := "root" } : Args).max_simultaneous 5 ∧
    ({ directory := "root" } : Args).max_simultaneous = 5 ∧
    (((initSched ["root/a.mp4"]).running.length : ℤ))
      ≤ min ({ directory := "root" } : Args).max_simultaneous 5 ∧
    (((initSched ["root/a.mp4"]).running.length : ℤ)) ≤ 5 ∧
    (((initSched ["root/a.mp4"]).running.length : ℤ))
      ≤ ({ directory := "root" } : Args).max_simultaneous :=
  claim_C8 { directory := "root" } "root" ["root/a.mp4"] (initSched ["root/a.mp4"])
    (by decide) Relation.ReflTransGen.refl
